import Mathlib

/-!
Verification of the Builder Readiness Evaluation Engine (app.py).

The engine's Python values are modelled by the inductive `PyVal`; Python
floats are modelled by exact rationals, with `round(x, n)` modelled as
round-half-to-even on the exact value (Python's round is round-half-to-even
on the underlying float; the two agree on every value this development
evaluates, including the tie 9.55 where the float sits strictly above the
tie and the exact tie 95.5 resolves upward to the even integer 96).
Python string primitives (`strip`, `lower`, `split(",")`, `in`, `len`) are
modelled by structural functions over the character list of a `String`;
`strip` uses ASCII whitespace and `lower` ASCII case folding, which agree
with Python on every ASCII input.
-/

/-- Model of the Python values the engine's inputs range over: `None`,
booleans, integers, strings, lists and string-keyed dicts. -/
inductive PyVal where
  | pyNone : PyVal
  | pyBool (b : Bool) : PyVal
  | pyInt (n : Int) : PyVal
  | pyStr (s : String) : PyVal
  | pyList (l : List PyVal) : PyVal
  | pyDict (d : List (String × PyVal)) : PyVal

mutual

/-- Python `repr` of a value, as used when a container is converted to text.
String escaping inside reprs is modelled without escape sequences; no claim
evaluates `str` on a container holding quotes. -/
def pyRepr : PyVal → String
  | .pyNone => "None"
  | .pyBool b => if b then "True" else "False"
  | .pyInt n => toString n
  | .pyStr s => "\x27" ++ s ++ "\x27"
  | .pyList l => "[" ++ String.intercalate ", " (pyReprList l) ++ "]"
  | .pyDict d => "\x7b" ++ String.intercalate ", " (pyReprDict d) ++ "\x7d"

def pyReprList : List PyVal → List String
  | [] => []
  | v :: vs => pyRepr v :: pyReprList vs

def pyReprDict : List (String × PyVal) → List String
  | [] => []
  | (k, v) :: kvs => ("\x27" ++ k ++ "\x27: " ++ pyRepr v) :: pyReprDict kvs

end

/-- Python `str(v)`: the value itself for strings, its repr otherwise. -/
def pyStr : PyVal → String
  | .pyStr s => s
  | v => pyRepr v

/-- The ASCII whitespace characters Python's `str.strip` removes. -/
def isSpaceChar (c : Char) : Bool :=
  c = ' ' || c = '\t' || c = '\n' || c = '\r' || c = '\x0b' || c = '\x0c'

/-- Python `str.strip()` on the character list: drop leading and trailing
whitespace. -/
def stripChars (l : List Char) : List Char :=
  ((l.dropWhile isSpaceChar).reverse.dropWhile isSpaceChar).reverse

/-- Python `s.strip()`. -/
def pyStrip (s : String) : String := String.mk (stripChars s.data)

/-- ASCII lower-casing of one character, Python `str.lower` on ASCII. -/
def lowerChar (c : Char) : Char :=
  if 'A' ≤ c && c ≤ 'Z' then Char.ofNat (c.toNat + 32) else c

/-- Python `s.lower()`. -/
def pyLower (s : String) : String := String.mk (s.data.map lowerChar)

/-- Python `s.split(",")` on the character list: `cur` is the current token
reversed; a comma closes the token, the end closes the last one. -/
def splitCommaAux : List Char → List Char → List (List Char)
  | [], cur => [cur.reverse]
  | c :: rest, cur =>
    if c = ',' then cur.reverse :: splitCommaAux rest []
    else splitCommaAux rest (c :: cur)

/-- Python `s.split(",")`. -/
def splitComma (s : String) : List String :=
  (splitCommaAux s.data []).map String.mk

/-- Python substring containment over characters: `tok` occurs inside `txt`
(the empty token occurs in everything, as Python's `in` has it). -/
def charsContain : List Char → List Char → Bool
  | [], tok => tok.isEmpty
  | txt@(_ :: rest), tok => tok.isPrefixOf txt || charsContain rest tok

/-- Python `tok in txt` on strings. -/
def strContains (txt tok : String) : Bool := charsContain txt.data tok.data

/-- Round-half-to-even to the nearest integer, Python's rounding rule. -/
def roundHalfEven (q : ℚ) : ℤ :=
  let f := ⌊q⌋
  if q - f < 1 / 2 then f
  else if q - f > 1 / 2 then f + 1
  else if f % 2 = 0 then f else f + 1

/-- Python `round(q, 1)`. -/
def pyRound1 (q : ℚ) : ℚ := (roundHalfEven (q * 10) : ℚ) / 10

/-- Python `round(q, 2)`. -/
def pyRound2 (q : ℚ) : ℚ := (roundHalfEven (q * 100) : ℚ) / 100

/-- `normalize_tech_stack` (app.py lines 23-28): a list maps each element
through `str` and `strip` keeping the non-empty results; a string is split
on commas, each token stripped, empties dropped; any other shape yields []. -/
def normalize_tech_stack : PyVal → List String
  | .pyList l => (l.map (fun v => pyStrip (pyStr v))).filter (fun t => t ≠ "")
  | .pyStr s => ((splitComma s).map pyStrip).filter (fun t => t ≠ "")
  | _ => []

/-- The lower-cased token set built from a raw tech-stack value inside
`compute_skill_match` (app.py lines 42-43). -/
def techTokenSet (v : PyVal) : Finset String :=
  ((normalize_tech_stack v).map pyLower).toFinset

/-- `compute_skill_match` (app.py lines 41-52). -/
def compute_skill_match (idea_tech_stack builder_tech_stack : PyVal) : ℚ :=
  let idea_set := techTokenSet idea_tech_stack
  let builder_set := techTokenSet builder_tech_stack
  if idea_set = ∅ then 0
  else
    let matched := idea_set ∩ builder_set
    if matched = ∅ then 0
    else (matched.card : ℚ) / (idea_set.card : ℚ)

/-- The fixed low-effort phrases of `compute_answer_quality` (lines 59-62). -/
def bad_tokens : List String :=
  ["i dont know", "i don\x27t know", "idk", "not sure",
   "no idea", "na", "n/a", "nothing", "nope"]

/-- The per-answer score of the loop body of `compute_answer_quality`
(lines 65-77): `str(ans).strip().lower()`, 0.0 on a low-effort phrase,
else 0.2 / 0.5 / 0.9 by trimmed length. -/
def answer_score (ans : PyVal) : ℚ :=
  let txt := pyLower (pyStrip (pyStr ans))
  if bad_tokens.any (fun tok => strContains txt tok) then 0
  else if txt.length < 20 then 2 / 10
  else if txt.length < 50 then 5 / 10
  else 9 / 10

/-- `compute_answer_quality` (app.py lines 55-79): 0.0 on an empty answer
list, else the mean of the per-answer scores rounded to 2 decimals. -/
def compute_answer_quality (answers : List PyVal) : ℚ :=
  if answers.isEmpty then 0
  else
    let scores := answers.map answer_score
    pyRound2 (scores.sum / (scores.length : ℚ))

/-- `compute_final_readiness` (app.py lines 82-92). -/
def compute_final_readiness (skill_match answer_quality : ℚ) : ℚ :=
  let base := skill_match * (55 / 100) + answer_quality * (45 / 100)
  let score := base * 10
  if skill_match = 0 then pyRound1 (min score (25 / 10))
  else if answer_quality < 25 / 100 then pyRound1 (min score 3)
  else pyRound1 score

/-- Evaluation record produced per interest (app.py lines 152-159). -/
structure Evaluation where
  readiness_score : ℚ
  skill_match_ratio : ℚ
  answer_quality : ℚ
  personality : String
  team_fit : String
  summary : String

/-- An interest record as stored on an idea (app.py lines 243-248): the
builder fields flattened in, the raw answers value, the evaluation. -/
structure Interest where
  interest_id : ℕ
  name : PyVal
  contact : PyVal
  email : PyVal
  tech_stack : List String
  years_of_experience : PyVal
  comments : PyVal
  answers : PyVal
  evaluation : Evaluation

/-- An idea record as stored in the global list (app.py lines 183-195). -/
structure Idea where
  id : ℕ
  idea_title : PyVal
  problem_statement : PyVal
  solution_summary : PyVal
  tech_stack : List String
  team_requirements : PyVal
  required_team_size : Int
  engagement_type : PyVal
  notes : PyVal
  generated_questions : List PyVal
  interests : List Interest

/-- The builder dict assembled at app.py lines 232-239. -/
structure Builder where
  name : PyVal
  contact : PyVal
  email : PyVal
  tech_stack : List String
  years_of_experience : PyVal
  comments : PyVal

/-- The personality descriptor returned by the external generative
collaborator (`get_ai_personality`); each field may be absent, and
`evaluate_builder` substitutes "unknown" / "" / "" defaults. -/
structure Personality where
  personality : Option String
  team_fit : Option String
  summary : Option String

/-- `evaluate_builder` (app.py lines 146-159), with the externally produced
personality descriptor passed as a pure input. -/
def evaluate_builder (idea : Idea) (builder : Builder) (_questions : List PyVal)
    (answers : List PyVal) (pers : Personality) : Evaluation :=
  let skill_match := compute_skill_match (.pyList (idea.tech_stack.map .pyStr))
      (.pyList (builder.tech_stack.map .pyStr))
  let answer_quality := compute_answer_quality answers
  { readiness_score := compute_final_readiness skill_match answer_quality
    skill_match_ratio := skill_match
    answer_quality := answer_quality
    personality := pers.personality.getD "unknown"
    team_fit := pers.team_fit.getD ""
    summary := pers.summary.getD "" }

/-- Python `int(v)`: exact for ints and bools, parsed for strings, a raised
`TypeError` (here `none`) for anything else. -/
def pyToInt : PyVal → Option Int
  | .pyInt n => some n
  | .pyBool b => some (if b then 1 else 0)
  | .pyStr s => (pyStrip s).toInt?
  | _ => none

/-- The generator sum `sum(int(i.get("count", 0)) for i in reqs)` of
app.py line 179 over a list value; `none` models a raised exception
(non-dict element or non-integral count). -/
def teamSumAux : List PyVal → Option Int
  | [] => some 0
  | .pyDict d :: rest => do
      let c ← pyToInt ((d.lookup "count").getD (.pyInt 0))
      let s ← teamSumAux rest
      pure (c + s)
  | _ :: _ => none

/-- The total team count of app.py line 179; `none` models a raised
exception (`team_requirements` not a list, or a bad element). -/
def team_requirements_sum : PyVal → Option Int
  | .pyList items => teamSumAux items
  | _ => none

/-- The required fields of idea submission (app.py lines 168-172). -/
def post_required_fields : List String :=
  ["idea_title", "problem_statement", "solution_summary",
   "tech_stack", "team_requirements", "engagement_type", "required_team_size"]

/-- Outcome of `post_idea`: a 400 for missing fields, a raised exception
(`failure`), a 400 team-size mismatch, or a created idea. -/
inductive PostOutcome where
  | missing (fields : List String)
  | failure
  | mismatch
  | created (idea : Idea)

/-- `post_idea` (app.py lines 165-198) acting on an explicit store state;
returns the outcome and the new state. -/
def post_idea (st : List Idea) (data : List (String × PyVal)) :
    PostOutcome × List Idea :=
  let missing := post_required_fields.filter (fun f => (data.lookup f).isNone)
  if missing.isEmpty then
    match pyToInt ((data.lookup "required_team_size").getD .pyNone),
          team_requirements_sum ((data.lookup "team_requirements").getD .pyNone) with
    | some required_team, some total_team =>
      if total_team ≠ required_team then (.mismatch, st)
      else
        let idea : Idea := {
          id := st.length + 1
          idea_title := (data.lookup "idea_title").getD .pyNone
          problem_statement := (data.lookup "problem_statement").getD .pyNone
          solution_summary := (data.lookup "solution_summary").getD .pyNone
          tech_stack := normalize_tech_stack ((data.lookup "tech_stack").getD .pyNone)
          team_requirements := (data.lookup "team_requirements").getD .pyNone
          required_team_size := required_team
          engagement_type := (data.lookup "engagement_type").getD .pyNone
          notes := (data.lookup "notes").getD (.pyStr "")
          generated_questions := []
          interests := [] }
        (.created idea, st ++ [idea])
    | _, _ => (.failure, st)
  else (.missing missing, st)

/-- `find_idea_index` (app.py lines 31-35): the enumerate loop carrying the
running index. -/
def find_idea_aux : ℕ → List Idea → ℕ → Option ℕ
  | _, [], _ => none
  | i, idea :: rest, target =>
    if idea.id = target then some i else find_idea_aux (i + 1) rest target

/-- `find_idea_index` entry point (app.py lines 31-35). -/
def find_idea_index (st : List Idea) (idea_id : ℕ) : Option ℕ :=
  find_idea_aux 0 st idea_id

/-- The question-generation route `gen_q` (app.py lines 201-209) with the
externally generated questions passed as a pure input; overwrites the
idea's `generated_questions`. -/
def gen_q (st : List Idea) (idea_id : ℕ) (questions : List PyVal) : List Idea :=
  match find_idea_index st idea_id with
  | none => st
  | some idx =>
    match st[idx]? with
    | none => st
    | some idea => st.set idx { idea with generated_questions := questions }

/-- Python iteration over a value: list elements, characters of a string,
keys of a dict; `none` models a raised `TypeError`. `len(v)` is the length
of this list whenever it exists. -/
def pyElems : PyVal → Option (List PyVal)
  | .pyList l => some l
  | .pyStr s => some (s.data.map (fun c => .pyStr (String.mk [c])))
  | .pyDict d => some (d.map (fun kv => .pyStr kv.1))
  | _ => none

/-- Python `len(v)` where defined. -/
def pyLen (v : PyVal) : Option ℕ := (pyElems v).map List.length

/-- The required fields of interest submission (app.py line 219). -/
def interest_required_fields : List String :=
  ["name", "contact", "email", "tech_stack", "years_of_experience", "answers"]

/-- Outcome of `submit_interest`: 404, 400 missing fields, raised
exception (`failure`), 400 answer-count mismatch, or a recorded
interest. -/
inductive SubmitOutcome where
  | notFound
  | missing (fields : List String)
  | failure
  | mismatch
  | recorded (interest : Interest)

/-- `submit_interest` (app.py lines 212-263) acting on an explicit store
state; returns the outcome and the new state. The engine (normalization,
scoring, combination) runs only on the recorded path, after every
validation has passed. -/
def submit_interest (st : List Idea) (idea_id : ℕ)
    (data : List (String × PyVal)) (pers : Personality) :
    SubmitOutcome × List Idea :=
  match find_idea_index st idea_id with
  | none => (.notFound, st)
  | some idx =>
    let missing := interest_required_fields.filter (fun f => (data.lookup f).isNone)
    if missing.isEmpty then
      match st[idx]? with
      | none => (.failure, st)
      | some idea =>
        let questions := idea.generated_questions
        let answers := (data.lookup "answers").getD .pyNone
        match pyElems answers with
        | none => (.failure, st)
        | some answer_list =>
          if questions.length ≠ answer_list.length then (.mismatch, st)
          else
            let builder : Builder := {
              name := (data.lookup "name").getD .pyNone
              contact := (data.lookup "contact").getD .pyNone
              email := (data.lookup "email").getD .pyNone
              tech_stack := normalize_tech_stack ((data.lookup "tech_stack").getD .pyNone)
              years_of_experience := (data.lookup "years_of_experience").getD .pyNone
              comments := (data.lookup "comments").getD (.pyStr "") }
            let evaluation := evaluate_builder idea builder questions answer_list pers
            let interest : Interest := {
              interest_id := idea.interests.length + 1
              name := builder.name
              contact := builder.contact
              email := builder.email
              tech_stack := builder.tech_stack
              years_of_experience := builder.years_of_experience
              comments := builder.comments
              answers := answers
              evaluation := evaluation }
            (.recorded interest,
             st.set idx { idea with interests := idea.interests ++ [interest] })
    else (.missing missing, st)

/-- Store states reachable from the empty store through the three mutating
routes, each applied with arbitrary request data. -/
inductive Reachable : List Idea → Prop where
  | init : Reachable []
  | post {st} (data : List (String × PyVal)) :
      Reachable st → Reachable (post_idea st data).2
  | genq {st} (idea_id : ℕ) (questions : List PyVal) :
      Reachable st → Reachable (gen_q st idea_id questions)
  | interest {st} (idea_id : ℕ) (data : List (String × PyVal)) (pers : Personality) :
      Reachable st → Reachable (submit_interest st idea_id data pers).2

/-- Modelled from the claim's words (spec section 4.4): base, scaling,
guardrail caps in the stated precedence, rounding applied to the possibly
capped score. -/
def readiness_combiner_claim (skill_match_ratio answer_quality : ℚ) : ℚ :=
  let base := skill_match_ratio * (55 / 100) + answer_quality * (45 / 100)
  let score := base * 10
  let capped :=
    if skill_match_ratio = 0 then min score (25 / 10)
    else if answer_quality < 25 / 100 then min score 3
    else score
  pyRound1 capped

/-- Modelled from the claim's words: the per-answer rule of C4 — lower-case
and trim the coerced text, 0.0 on any of the fixed low-effort phrases as a
substring, else 0.2 below 20 characters, 0.5 below 50, 0.9 otherwise. -/
def answer_score_claim (ans : PyVal) : ℚ :=
  let txt := pyLower (pyStrip (pyStr ans))
  if ["i dont know", "i don\x27t know", "idk", "not sure",
      "no idea", "na", "n/a", "nothing", "nope"].any
      (fun tok => strContains txt tok) then 0
  else if txt.length < 20 then 2 / 10
  else if txt.length < 50 then 5 / 10
  else 9 / 10

/-- Modelled from the claim's words: 0.0 for an empty answers sequence,
else the arithmetic mean of the per-answer scores rounded to 2 decimals. -/
def answer_quality_claim : List PyVal → ℚ
  | [] => 0
  | answers => pyRound2 ((answers.map answer_score_claim).sum / (answers.length : ℚ))

/-- Modelled from the claim's words: a list's elements are converted to
text, then stripped, then empties discarded; a string is first split on
commas, then tokens stripped and empties discarded; any other shape yields
the empty sequence. -/
def normalize_claim : PyVal → List String
  | .pyList l => ((l.map pyStr).map pyStrip).filter (fun t => t ≠ "")
  | .pyStr s => ((splitComma s).map pyStrip).filter (fun t => t ≠ "")
  | _ => []

/-- Division made explicitly fallible: `none` models Python's
ZeroDivisionError, for exception-freedom statements. -/
def qdiv (a b : ℚ) : Option ℚ := if b = 0 then none else some (a / b)

/-- `compute_skill_match` with its only division replaced by the fallible
division, to state that the empty-idea-set guard keeps it applicable. -/
def compute_skill_match_checked (idea_tech_stack builder_tech_stack : PyVal) : Option ℚ :=
  let idea_set := techTokenSet idea_tech_stack
  let builder_set := techTokenSet builder_tech_stack
  if idea_set = ∅ then some 0
  else
    let matched := idea_set ∩ builder_set
    if matched = ∅ then some 0
    else qdiv (matched.card : ℚ) (idea_set.card : ℚ)

/-- `compute_answer_quality` with its only division made fallible. -/
def compute_answer_quality_checked (answers : List PyVal) : Option ℚ :=
  if answers.isEmpty then some 0
  else
    let scores := answers.map answer_score
    (qdiv scores.sum (scores.length : ℚ)).map pyRound2

/-- The sequential-id invariant of the store: the i-th idea (0-based) has
id i+1, and inside every idea the j-th interest has interest id j+1. -/
def idsSequential (st : List Idea) : Prop :=
  (∀ (i : ℕ) (hi : i < st.length), (st.get ⟨i, hi⟩).id = i + 1) ∧
  ∀ idea ∈ st, ∀ (j : ℕ) (hj : j < idea.interests.length),
    (idea.interests.get ⟨j, hj⟩).interest_id = j + 1

/-- A well-formed idea submission used to exercise the store. -/
def sample_idea_data : List (String × PyVal) :=
  [("idea_title", .pyStr "Realtime study notes"),
   ("problem_statement", .pyStr "Notes get lost"),
   ("solution_summary", .pyStr "Shared live notes"),
   ("tech_stack", .pyList [.pyStr "Python", .pyStr "Go"]),
   ("team_requirements", .pyList [.pyDict [("role", .pyStr "dev"), ("count", .pyInt 2)]]),
   ("engagement_type", .pyStr "remote"),
   ("required_team_size", .pyInt 2)]

/-- The store after three idea submissions. -/
def three_posts : List Idea :=
  (post_idea (post_idea (post_idea [] sample_idea_data).2 sample_idea_data).2
    sample_idea_data).2

/-- A well-formed interest submission whose answers list is empty, matching
an idea with no generated questions. -/
def sample_interest_data : List (String × PyVal) :=
  [("name", .pyStr "Ana"), ("contact", .pyStr "123"), ("email", .pyStr "a@b.c"),
   ("tech_stack", .pyStr "python, go"), ("years_of_experience", .pyInt 3),
   ("answers", .pyList [])]

/-- A personality descriptor with every field present. -/
def sample_personality : Personality :=
  ⟨some "builder", some "fits the team", some "solid profile"⟩

/-- The store after three idea submissions and two interest submissions to
idea 1. -/
def two_interests : List Idea :=
  (submit_interest (submit_interest three_posts 1 sample_interest_data
    sample_personality).2 1 sample_interest_data sample_personality).2

/-- An interest submission with one answer, against an idea holding no
generated questions. -/
def mismatch_interest_data : List (String × PyVal) :=
  [("name", .pyStr "Bo"), ("contact", .pyStr "456"), ("email", .pyStr "b@c.d"),
   ("tech_stack", .pyStr "go"), ("years_of_experience", .pyInt 1),
   ("answers", .pyList [.pyStr "hello"])]

/-- An idea submission whose tech_stack holds two case-insensitively equal
tokens in different casings. -/
def duplicate_stack_data : List (String × PyVal) :=
  [("idea_title", .pyStr "t"), ("problem_statement", .pyStr "p"),
   ("solution_summary", .pyStr "s"),
   ("tech_stack", .pyList [.pyStr "Python", .pyStr "python"]),
   ("team_requirements", .pyList [.pyDict [("role", .pyStr "dev"), ("count", .pyInt 1)]]),
   ("engagement_type", .pyStr "e"), ("required_team_size", .pyInt 1)]

theorem roundHalfEven_le_ceil (q : ℚ) : roundHalfEven q ≤ ⌈q⌉ := by
  have hfc : ⌊q⌋ ≤ ⌈q⌉ := Int.floor_le_ceil q
  have key : 1 / 2 ≤ q - ⌊q⌋ → ⌊q⌋ + 1 ≤ ⌈q⌉ := by
    intro h
    have hlt : (⌊q⌋ : ℚ) < q := by linarith
    have hcast : (⌊q⌋ : ℚ) < (⌈q⌉ : ℚ) := lt_of_lt_of_le hlt (Int.le_ceil q)
    have : ⌊q⌋ < ⌈q⌉ := by exact_mod_cast hcast
    omega
  simp only [roundHalfEven]
  split_ifs with h1 h2 h3
  · exact hfc
  · exact key (le_of_lt h2)
  · exact hfc
  · exact key (by linarith)

theorem pyRound1_le_of_le {q c : ℚ} (h : q ≤ c) : pyRound1 q ≤ (⌈c * 10⌉ : ℚ) / 10 := by
  have h1 : roundHalfEven (q * 10) ≤ ⌈q * 10⌉ := roundHalfEven_le_ceil _
  have h2 : ⌈q * 10⌉ ≤ ⌈c * 10⌉ := Int.ceil_mono (by linarith)
  have h3 : (roundHalfEven (q * 10) : ℚ) ≤ (⌈c * 10⌉ : ℚ) := by
    exact_mod_cast le_trans h1 h2
  simp only [pyRound1]
  linarith

/-- C1: over skill_match_ratio in [0,1] and answer_quality in [0,0.9] the
implemented combiner computes exactly the claimed rule: base =
skill_match*0.55 + answer_quality*0.45, score = base*10, cap at 2.5 when
skill_match = 0, else cap at 3.0 when answer_quality < 0.25, else no cap,
and the possibly capped score rounded to 1 decimal place. -/
theorem readiness_combiner_matches_claim (sm aq : ℚ)
    (h0 : 0 ≤ sm) (h1 : sm ≤ 1) (h2 : 0 ≤ aq) (h3 : aq ≤ 9 / 10) :
    compute_final_readiness sm aq = readiness_combiner_claim sm aq := by
  simp only [compute_final_readiness, readiness_combiner_claim]
  split_ifs <;> rfl

theorem readiness_combiner_matches_claim_witness :
    ((0 : ℚ) ≤ 1 / 2 ∧ (1 / 2 : ℚ) ≤ 1 ∧ (0 : ℚ) ≤ 9 / 10 ∧ (9 / 10 : ℚ) ≤ 9 / 10) ∧
    compute_final_readiness (1 / 2) (9 / 10) = readiness_combiner_claim (1 / 2) (9 / 10) :=
  ⟨⟨by norm_num, by norm_num, by norm_num, by norm_num⟩,
   readiness_combiner_matches_claim (1 / 2) (9 / 10)
     (by norm_num) (by norm_num) (by norm_num) (by norm_num)⟩

/-- C2 counterexample: skill_match = 1 lies in [0,1] and answer_quality =
0.9 lies in [0,0.9], yet the combiner returns 9.6, strictly above the
claimed ceiling 9.25 (the unrounded score there is 0.55+0.405 = 0.955,
scaled to 9.55, which rounds to 9.6). -/
theorem readiness_ceiling_cex :
    (0 : ℚ) ≤ 1 ∧ (1 : ℚ) ≤ 1 ∧ (0 : ℚ) ≤ 9 / 10 ∧ (9 / 10 : ℚ) ≤ 9 / 10 ∧
    compute_final_readiness 1 (9 / 10) = 96 / 10 ∧ ¬((96 / 10 : ℚ) ≤ 37 / 4) := by
  refine ⟨by norm_num, by norm_num, by norm_num, by norm_num, ?_, by norm_num⟩
  norm_num [compute_final_readiness, pyRound1, roundHalfEven]

/-- C2 amended: for skill_match_ratio in [0,1] and answer_quality in
[0,0.9] the returned readiness score is at most 9.6; the pre-rounding
ceiling is 9.55 = 0.55*1 + 0.45*0.9 scaled by 10, attained (and rounded
to 9.6) at skill_match = 1 and answer_quality = 0.9. -/
theorem readiness_score_le_ceiling (sm aq : ℚ)
    (h0 : 0 ≤ sm) (h1 : sm ≤ 1) (h2 : 0 ≤ aq) (h3 : aq ≤ 9 / 10) :
    compute_final_readiness sm aq ≤ 96 / 10 ∧
    compute_final_readiness 1 (9 / 10) = 96 / 10 := by
  constructor
  · have hs : (sm * (55 / 100) + aq * (45 / 100)) * 10 ≤ 191 / 20 := by linarith
    simp only [compute_final_readiness]
    split_ifs
    · have hb := pyRound1_le_of_le
        (min_le_right ((sm * (55 / 100) + aq * (45 / 100)) * 10) (25 / 10))
      have : (⌈(25 / 10 : ℚ) * 10⌉ : ℚ) / 10 = 25 / 10 := by norm_num
      linarith
    · have hb := pyRound1_le_of_le
        (min_le_right ((sm * (55 / 100) + aq * (45 / 100)) * 10) 3)
      have : (⌈(3 : ℚ) * 10⌉ : ℚ) / 10 = 3 := by norm_num
      linarith
    · have hb := pyRound1_le_of_le hs
      have hc : ⌈(191 / 20 : ℚ) * 10⌉ = 96 := by
        rw [show ((191 : ℚ) / 20) * 10 = 95 + 1 / 2 by norm_num, Int.ceil_eq_iff] <;> norm_num
      rw [hc] at hb
      have : ((96 : ℤ) : ℚ) / 10 = 96 / 10 := by norm_num
      linarith
  · norm_num [compute_final_readiness, pyRound1, roundHalfEven]

theorem readiness_score_le_ceiling_witness :
    ((0 : ℚ) ≤ 1 ∧ (1 : ℚ) ≤ 1 ∧ (0 : ℚ) ≤ 9 / 10 ∧ (9 / 10 : ℚ) ≤ 9 / 10) ∧
    compute_final_readiness 1 (9 / 10) ≤ 96 / 10 :=
  ⟨⟨by norm_num, by norm_num, by norm_num, by norm_num⟩,
   (readiness_score_le_ceiling 1 (9 / 10)
     (by norm_num) (by norm_num) (by norm_num) (by norm_num)).1⟩

/-- C3: the skill match equals |idea_set ∩ builder_set| / |idea_set| over
the lower-cased normalized token sets, lies in [0,1], is 0 when the idea
set or the intersection is empty, is invariant under inputs with equal
token sets (hence under duplicates and reordering), and the spec's example
evaluates to 0.5. -/
theorem skill_match_matches_claim (a b : PyVal) :
    compute_skill_match a b =
      ((techTokenSet a ∩ techTokenSet b).card : ℚ) / ((techTokenSet a).card : ℚ) ∧
    0 ≤ compute_skill_match a b ∧
    compute_skill_match a b ≤ 1 ∧
    (techTokenSet a = ∅ → compute_skill_match a b = 0) ∧
    (techTokenSet a ∩ techTokenSet b = ∅ → compute_skill_match a b = 0) ∧
    (∀ a' b', techTokenSet a = techTokenSet a' → techTokenSet b = techTokenSet b' →
      compute_skill_match a b = compute_skill_match a' b') ∧
    compute_skill_match (.pyList [.pyStr "Python", .pyStr "Go"])
      (.pyList [.pyStr "python", .pyStr "rust"]) = 1 / 2 := by
  refine ⟨?_, ?_, ?_, ?_, ?_, ?_, ?_⟩
  · simp only [compute_skill_match]
    split_ifs with h1 h2
    · simp [h1]
    · simp [h2]
    · rfl
  · simp only [compute_skill_match]
    split_ifs with h1 h2
    · norm_num
    · norm_num
    · positivity
  · simp only [compute_skill_match]
    split_ifs with h1 h2
    · norm_num
    · norm_num
    · apply div_le_one_of_le₀
      · exact_mod_cast Finset.card_le_card Finset.inter_subset_left
      · positivity
  · intro h1
    simp [compute_skill_match, h1]
  · intro h2
    simp [compute_skill_match, h2]
  · intro a' b' ha hb
    simp only [compute_skill_match, ha, hb]
  · have h1 : (techTokenSet (.pyList [.pyStr "Python", .pyStr "Go"]) ∩
        techTokenSet (.pyList [.pyStr "python", .pyStr "rust"])).card = 1 := by decide
    have h2 : (techTokenSet (.pyList [.pyStr "Python", .pyStr "Go"])).card = 2 := by decide
    norm_num +decide [compute_skill_match, h1, h2]

theorem skill_match_matches_claim_witness :
    compute_skill_match .pyNone (.pyStr "python") = 0 ∧
    compute_skill_match (.pyList [.pyStr "Python", .pyStr "Go"])
      (.pyList [.pyStr "python", .pyStr "rust"]) = 1 / 2 :=
  ⟨(skill_match_matches_claim .pyNone (.pyStr "python")).2.2.2.1 (by decide),
   (skill_match_matches_claim .pyNone .pyNone).2.2.2.2.2.2⟩

theorem answer_score_claim_eq : answer_score_claim = answer_score := rfl

/-- C4: the implemented answer-quality scorer computes exactly the claimed
rule — 0.0 on an empty sequence, else the mean of the per-answer scores
(0.0 on a low-effort phrase, 0.2/0.5/0.9 by trimmed length) rounded to 2
decimals — and the spec's example evaluates to 0.45. -/
theorem answer_quality_matches_claim (answers : List PyVal) :
    compute_answer_quality answers = answer_quality_claim answers ∧
    compute_answer_quality [] = 0 ∧
    compute_answer_quality [.pyStr "idk",
      .pyStr "This is a decent length answer about my experience."] = 45 / 100 := by
  refine ⟨?_, rfl, ?_⟩
  · cases answers with
    | nil => rfl
    | cons a as =>
      show pyRound2 ((((a :: as).map answer_score).sum) /
          ((((a :: as).map answer_score).length : ℕ) : ℚ)) =
        pyRound2 ((((a :: as).map answer_score_claim).sum) / (((a :: as).length : ℕ) : ℚ))
      rw [answer_score_claim_eq, List.length_map]
  · norm_num +decide [compute_answer_quality, answer_score, pyRound2, roundHalfEven]

/-- C5: the implemented normalizer computes exactly the claimed pipeline on
every input shape, and the claim's examples evaluate as stated, with order
preserved and duplicates kept. -/
theorem normalizer_matches_claim (v : PyVal) :
    normalize_tech_stack v = normalize_claim v ∧
    normalize_tech_stack (.pyStr "a, b ,,c") = ["a", "b", "c"] ∧
    normalize_tech_stack (.pyList [.pyStr "x ", .pyStr " ", .pyStr "y"]) = ["x", "y"] ∧
    normalize_tech_stack .pyNone = [] ∧
    normalize_tech_stack (.pyList [.pyStr "a", .pyStr "b", .pyStr "a"]) = ["a", "b", "a"] := by
  refine ⟨?_, by decide, by decide, rfl, by decide⟩
  cases v <;> simp only [normalize_tech_stack, normalize_claim, List.map_map] <;> rfl

theorem compute_skill_match_checked_eq (a b : PyVal) :
    compute_skill_match_checked a b = some (compute_skill_match a b) := by
  simp only [compute_skill_match_checked, compute_skill_match]
  split_ifs with h1 h2
  · rfl
  · rfl
  · have hpos : 0 < (techTokenSet a).card :=
      Finset.card_pos.mpr (Finset.nonempty_iff_ne_empty.mpr h1)
    have hne : ((techTokenSet a).card : ℚ) ≠ 0 := by exact_mod_cast hpos.ne'
    simp [qdiv, hne]

theorem compute_answer_quality_checked_eq (answers : List PyVal) :
    compute_answer_quality_checked answers = some (compute_answer_quality answers) := by
  cases answers with
  | nil => rfl
  | cons a as =>
    have hlen : ((((a :: as).map answer_score).length : ℕ) : ℚ) ≠ 0 := by
      rw [List.length_map]
      exact Nat.cast_ne_zero.mpr (Nat.succ_ne_zero as.length)
    show (qdiv (((a :: as).map answer_score).sum)
        ((((a :: as).map answer_score).length : ℕ) : ℚ)).map pyRound2 =
      some (compute_answer_quality (a :: as))
    show (qdiv (((a :: as).map answer_score).sum)
        ((((a :: as).map answer_score).length : ℕ) : ℚ)).map pyRound2 =
      some (pyRound2 ((((a :: as).map answer_score).sum) /
        ((((a :: as).map answer_score).length : ℕ) : ℚ)))
    rw [qdiv, if_neg hlen, Option.map_some']

/-- C6: the scoring operations are total for every input shape: the checked
skill match (fallible division) always returns the value of the pure one —
its division is guarded by the empty-idea-set check — likewise the checked
answer quality (guarded by the empty-answers check), and a tech-stack input
that is neither a list nor a string degrades to the empty sequence rather
than failing. The readiness combiner is division-free by construction. -/
theorem engine_never_fails (a b : PyVal) (answers : List PyVal) :
    compute_skill_match_checked a b = some (compute_skill_match a b) ∧
    compute_answer_quality_checked answers = some (compute_answer_quality answers) ∧
    (∀ v : PyVal, (∀ l, v ≠ .pyList l) → (∀ s, v ≠ .pyStr s) →
      normalize_tech_stack v = []) :=
  ⟨compute_skill_match_checked_eq a b, compute_answer_quality_checked_eq answers, by
    intro v hl hs
    cases v with
    | pyNone => rfl
    | pyBool b0 => rfl
    | pyInt n => rfl
    | pyStr s => exact absurd rfl (hs s)
    | pyList l => exact absurd rfl (hl l)
    | pyDict d => rfl⟩

theorem engine_never_fails_witness :
    normalize_tech_stack (.pyInt 7) = [] ∧
    compute_skill_match_checked .pyNone .pyNone = some (compute_skill_match .pyNone .pyNone) ∧
    compute_answer_quality_checked [] = some (compute_answer_quality []) :=
  ⟨(engine_never_fails .pyNone .pyNone []).2.2 (.pyInt 7)
     (fun l h => PyVal.noConfusion h) (fun s h => PyVal.noConfusion h),
   (engine_never_fails .pyNone .pyNone []).1,
   (engine_never_fails .pyNone .pyNone []).2.1⟩

/-- C10: the answer-quality scorer coerces every answer to text with `str`
before scoring: on any non-empty answers list the checked scorer yields a
value, `None` coerces to the four-character text "None" (trimmed and
lower-cased to "none", which holds no low-effort phrase), so it scores 0.2,
and a single-null answers list scores 0.2. -/
theorem answer_quality_coerces_any_type (answers : List PyVal) (h : answers ≠ []) :
    (∃ q, compute_answer_quality_checked answers = some q) ∧
    pyStr .pyNone = "None" ∧
    (pyLower (pyStrip (pyStr .pyNone))).length = 4 ∧
    answer_score .pyNone = 2 / 10 ∧
    compute_answer_quality [.pyNone] = 2 / 10 := by
  refine ⟨⟨compute_answer_quality answers, compute_answer_quality_checked_eq answers⟩,
    rfl, by decide, ?_, ?_⟩
  · norm_num +decide [answer_score]
  · norm_num +decide [compute_answer_quality, answer_score, pyRound2, roundHalfEven]

theorem answer_quality_coerces_any_type_witness :
    [PyVal.pyNone] ≠ [] ∧ compute_answer_quality [.pyNone] = 2 / 10 :=
  ⟨List.cons_ne_nil _ _,
   (answer_quality_coerces_any_type [.pyNone] (List.cons_ne_nil _ _)).2.2.2.2⟩

theorem post_idea_cases (st : List Idea) (data : List (String × PyVal)) :
    (post_idea st data).2 = st ∨
    ∃ idea, (post_idea st data).2 = st ++ [idea] ∧
      idea.id = st.length + 1 ∧ idea.interests = [] := by
  simp only [post_idea]
  split
  · split
    · split
      · exact Or.inl rfl
      · exact Or.inr ⟨_, rfl, rfl, rfl⟩
    · exact Or.inl rfl
  · exact Or.inl rfl

theorem gen_q_cases (st : List Idea) (idea_id : ℕ) (questions : List PyVal) :
    gen_q st idea_id questions = st ∨
    ∃ idx idea, st[idx]? = some idea ∧
      gen_q st idea_id questions =
        st.set idx { idea with generated_questions := questions } := by
  simp only [gen_q]
  split
  · exact Or.inl rfl
  · split
    · exact Or.inl rfl
    · next idea heq => exact Or.inr ⟨_, idea, heq, rfl⟩

theorem submit_interest_state (st : List Idea) (idea_id : ℕ)
    (data : List (String × PyVal)) (pers : Personality) :
    (submit_interest st idea_id data pers).2 = st ∨
    ∃ idx idea interest, st[idx]? = some idea ∧
      interest.interest_id = idea.interests.length + 1 ∧
      (submit_interest st idea_id data pers).2 =
        st.set idx { idea with interests := idea.interests ++ [interest] } := by
  simp only [submit_interest]
  split
  · exact Or.inl rfl
  · split
    · split
      · exact Or.inl rfl
      · next idea heq =>
        split
        · exact Or.inl rfl
        · split
          · exact Or.inl rfl
          · exact Or.inr ⟨_, idea, _, heq, rfl, rfl⟩
    · exact Or.inl rfl

theorem idsSequential_append {st : List Idea} {idea : Idea}
    (h : idsSequential st) (hid : idea.id = st.length + 1)
    (hint : idea.interests = []) :
    idsSequential (st ++ [idea]) := by
  obtain ⟨h1, h2⟩ := h
  constructor
  · intro i hi
    simp only [List.get_eq_getElem]
    rcases Nat.lt_or_ge i st.length with hlt | hge
    · rw [List.getElem_append_left hlt]
      have := h1 i hlt
      simpa using this
    · have hieq : i = st.length := by
        simp only [List.length_append, List.length_cons, List.length_nil] at hi
        omega
      rw [List.getElem_concat_length st idea i hieq]
      rw [hid, hieq]
  · intro idea0 hmem j hj
    rcases List.mem_append.mp hmem with hmem0 | hmem1
    · exact h2 idea0 hmem0 j hj
    · have heq : idea0 = idea := by simpa using hmem1
      rw [heq, hint] at hj
      exact absurd hj (by simp)

theorem idsSequential_set {st : List Idea} {idx : ℕ} {idea idea' : Idea}
    (h : idsSequential st) (hget : st[idx]? = some idea)
    (hid : idea'.id = idea.id)
    (hint : ∀ (j : ℕ) (hj : j < idea'.interests.length),
      (idea'.interests.get ⟨j, hj⟩).interest_id = j + 1) :
    idsSequential (st.set idx idea') := by
  obtain ⟨h1, h2⟩ := h
  have hidx : idx < st.length := by
    by_contra hc
    rw [List.getElem?_eq_none (Nat.le_of_not_lt hc)] at hget
    cases hget
  have hidea : st.get ⟨idx, hidx⟩ = idea := by
    rw [List.getElem?_eq_getElem hidx] at hget
    simpa using Option.some.inj hget
  constructor
  · intro i hi
    have hi' : i < st.length := by simpa using hi
    simp only [List.get_eq_getElem]
    by_cases hcase : idx = i
    · subst hcase
      rw [List.getElem_set_self]
      rw [hid]
      have := h1 idx hidx
      rw [hidea] at this
      exact this
    · rw [List.getElem_set_ne hcase]
      have := h1 i hi'
      simpa using this
  · intro idea0 hmem j hj
    rcases List.mem_or_eq_of_mem_set hmem with hmem0 | heq
    · exact h2 idea0 hmem0 j hj
    · subst heq
      exact hint j hj

theorem reachable_idsSequential {st : List Idea} (h : Reachable st) :
    idsSequential st := by
  induction h with
  | init =>
    exact ⟨fun i hi => absurd hi (by simp), fun idea hmem => absurd hmem (by simp)⟩
  | post data hr ih =>
    rcases post_idea_cases _ data with heq | ⟨idea, heq, hid, hint⟩
    · rw [heq]; exact ih
    · rw [heq]; exact idsSequential_append ih hid hint
  | genq idea_id questions hr ih =>
    rcases gen_q_cases _ idea_id questions with heq | ⟨idx, idea, hget, heq⟩
    · rw [heq]; exact ih
    · rw [heq]
      exact idsSequential_set ih hget rfl
        (fun j hj => ih.2 idea (List.getElem?_mem hget) j hj)
  | interest idea_id data pers hr ih =>
    rcases submit_interest_state _ idea_id data pers with
      heq | ⟨idx, idea, interest, hget, hiid, heq⟩
    · rw [heq]; exact ih
    · rw [heq]
      refine idsSequential_set ih hget rfl ?_
      intro j hj
      show ((idea.interests ++ [interest]).get ⟨j, hj⟩).interest_id = j + 1
      simp only [List.get_eq_getElem]
      rcases Nat.lt_or_ge j idea.interests.length with hlt | hge
      · rw [List.getElem_append_left hlt]
        have := ih.2 idea (List.getElem?_mem hget) j hlt
        simpa using this
      · have hj' : j < idea.interests.length + 1 := by simpa using hj
        have hjeq : j = idea.interests.length := by omega
        rw [List.getElem_concat_length _ _ _ hjeq]
        rw [hiid, hjeq]

/-- C7: in every reachable store state the idea at 0-based position i has
id i+1 — so the n-th created idea has id n and three creations yield ids
1,2,3 — and within each idea the interest at position j has interest id
j+1 starting at 1, independent of any other idea; consequently idea ids
are globally unique and interest ids unique within their owning idea. -/
theorem sequential_id_assignment (st : List Idea) (h : Reachable st) :
    (∀ (i : ℕ) (hi : i < st.length), (st.get ⟨i, hi⟩).id = i + 1) ∧
    (∀ idea ∈ st, ∀ (j : ℕ) (hj : j < idea.interests.length),
      (idea.interests.get ⟨j, hj⟩).interest_id = j + 1) ∧
    (∀ (i j : ℕ) (hi : i < st.length) (hj : j < st.length),
      (st.get ⟨i, hi⟩).id = (st.get ⟨j, hj⟩).id → i = j) ∧
    (∀ idea ∈ st, ∀ (i j : ℕ) (hi : i < idea.interests.length)
      (hj : j < idea.interests.length),
      (idea.interests.get ⟨i, hi⟩).interest_id =
        (idea.interests.get ⟨j, hj⟩).interest_id → i = j) := by
  obtain ⟨h1, h2⟩ := reachable_idsSequential h
  refine ⟨h1, h2, ?_, ?_⟩
  · intro i j hi hj heq
    have hi1 := h1 i hi
    have hj1 := h1 j hj
    omega
  · intro idea hmem i j hi hj heq
    have hi1 := h2 idea hmem i hi
    have hj1 := h2 idea hmem j hj
    omega

theorem three_posts_reachable : Reachable three_posts :=
  Reachable.post sample_idea_data (Reachable.post sample_idea_data
    (Reachable.post sample_idea_data Reachable.init))

theorem two_interests_reachable : Reachable two_interests :=
  Reachable.interest 1 sample_interest_data sample_personality
    (Reachable.interest 1 sample_interest_data sample_personality three_posts_reachable)

theorem sequential_id_assignment_witness :
    three_posts.length = 3 ∧
    (three_posts.get ⟨0, by decide⟩).id = 1 ∧
    (three_posts.get ⟨1, by decide⟩).id = 2 ∧
    (three_posts.get ⟨2, by decide⟩).id = 3 ∧
    ((two_interests.get ⟨0, by decide⟩).interests.get ⟨0, by decide⟩).interest_id = 1 ∧
    ((two_interests.get ⟨0, by decide⟩).interests.get ⟨1, by decide⟩).interest_id = 2 := by
  refine ⟨by decide, ?_, ?_, ?_, ?_, ?_⟩
  · exact (sequential_id_assignment _ three_posts_reachable).1 0 (by decide)
  · exact (sequential_id_assignment _ three_posts_reachable).1 1 (by decide)
  · exact (sequential_id_assignment _ three_posts_reachable).1 2 (by decide)
  · exact (sequential_id_assignment _ two_interests_reachable).2.1 _
      (List.get_mem two_interests 0 (by decide)) 0 (by decide)
  · exact (sequential_id_assignment _ two_interests_reachable).2.1 _
      (List.get_mem two_interests 0 (by decide)) 1 (by decide)

/-- C8: with the idea found and every required field present, an interest
submission is rejected with the answer-count mismatch exactly when the
submitted answers length differs from the idea's current generated-questions
length; on that rejection the store (hence the idea and its interests) is
unchanged and the engine is never reached (the recorded branch is the only
one that evaluates it); on acceptance the recorded interest stores answers
of exactly the questions length and is appended to that idea. -/
theorem answer_count_gating (st : List Idea) (idea_id : ℕ)
    (data : List (String × PyVal)) (pers : Personality) (idx : ℕ) (idea : Idea)
    (l : List PyVal)
    (hfind : find_idea_index st idea_id = some idx)
    (hget : st[idx]? = some idea)
    (hfields : (interest_required_fields.filter
      (fun f => (data.lookup f).isNone)).isEmpty = true)
    (hans : data.lookup "answers" = some (.pyList l)) :
    ((submit_interest st idea_id data pers).1 = .mismatch ↔
      l.length ≠ idea.generated_questions.length) ∧
    ((submit_interest st idea_id data pers).1 = .mismatch →
      (submit_interest st idea_id data pers).2 = st) ∧
    (l.length = idea.generated_questions.length →
      ∃ interest, (submit_interest st idea_id data pers).1 = .recorded interest ∧
        interest.interest_id = idea.interests.length + 1 ∧
        pyLen interest.answers = some idea.generated_questions.length ∧
        (submit_interest st idea_id data pers).2 =
          st.set idx { idea with interests := idea.interests ++ [interest] }) := by
  simp only [submit_interest, hfind, hget, hans, hfields, Option.getD_some, pyElems,
    if_true, List.isEmpty_iff]
  split_ifs with hc
  · refine ⟨⟨fun _ => Ne.symm hc, fun _ => rfl⟩, fun _ => rfl, fun h => absurd h.symm hc⟩
  · have hceq : idea.generated_questions.length = l.length := not_ne_iff.mp hc
    refine ⟨⟨fun hh => hh.elim,
      fun hh => absurd hceq.symm hh⟩,
      fun hh => hh.elim, fun h => ?_⟩
    exact ⟨_, rfl, rfl, by simp [pyLen, pyElems, h], rfl⟩

theorem answer_count_gating_witness :
    (submit_interest three_posts 1 mismatch_interest_data sample_personality).1 =
      .mismatch ∧
    (submit_interest three_posts 1 mismatch_interest_data sample_personality).2 =
      three_posts ∧
    ∃ interest, (submit_interest three_posts 1 sample_interest_data
      sample_personality).1 = .recorded interest := by
  have happ := answer_count_gating three_posts 1 mismatch_interest_data
    sample_personality 0 _ [.pyStr "hello"] rfl rfl rfl rfl
  have haccept := answer_count_gating three_posts 1 sample_interest_data
    sample_personality 0 _ ([] : List PyVal) rfl rfl rfl rfl
  have hmis := happ.1.mpr (by decide)
  refine ⟨hmis, happ.2.1 hmis, ?_⟩
  obtain ⟨interest, hrec, -, -, -⟩ := haccept.2.2 (by decide)
  exact ⟨interest, hrec⟩

/-- C9 counterexample: this accepted creation stores the required tech
stack ["Python", "python"], whose two tokens at distinct positions are
equal under case-insensitive comparison, so the stored sequence is not
pairwise distinct case-insensitively (the normalizer never deduplicates). -/
theorem stored_stack_distinctness_cex :
    (post_idea [] duplicate_stack_data).2.map Idea.tech_stack = [["Python", "python"]] ∧
    pyLower "Python" = pyLower "python" ∧ "Python" ≠ "python" :=
  ⟨by decide, by decide, by decide⟩

theorem post_idea_created {st : List Idea} {data : List (String × PyVal)} {idea : Idea} :
    (post_idea st data).1 = .created idea →
    idea.tech_stack = normalize_tech_stack ((data.lookup "tech_stack").getD .pyNone) := by
  simp only [post_idea]
  split
  · split
    · split
      · intro h
        exact absurd h (by simp)
      · intro h
        injection h with h'
        rw [← h']
    · intro h
      exact absurd h (by simp)
  · intro h
    exact absurd h (by simp)

theorem normalize_tech_stack_tokens_ne_empty (v : PyVal) :
    ∀ t ∈ normalize_tech_stack v, t ≠ "" := by
  intro t ht
  cases v with
  | pyStr s =>
    rcases List.mem_filter.mp ht with ⟨-, h2⟩
    simpa using h2
  | pyList l =>
    rcases List.mem_filter.mp ht with ⟨-, h2⟩
    simpa using h2
  | pyNone => cases ht
  | pyBool b => cases ht
  | pyInt n => cases ht
  | pyDict d => cases ht

/-- C9 amended: for every accepted idea creation the stored required tech
stack is exactly the normalizer's output on the submitted tech_stack value
— stripped tokens in first-seen order, empties discarded, original casing
preserved, every stored token non-empty — but tokens are not deduplicated,
so pairwise case-insensitive distinctness is not guaranteed (deduplication
happens only in the skill-match set comparison). -/
theorem stored_stack_normalized (st : List Idea) (data : List (String × PyVal))
    (idea : Idea) (h : (post_idea st data).1 = .created idea) :
    idea.tech_stack = normalize_tech_stack ((data.lookup "tech_stack").getD .pyNone) ∧
    ∀ t ∈ idea.tech_stack, t ≠ "" := by
  have hts := post_idea_created h
  refine ⟨hts, ?_⟩
  rw [hts]
  exact normalize_tech_stack_tokens_ne_empty _

theorem stored_stack_normalized_witness :
    ∃ idea, (post_idea [] duplicate_stack_data).1 = .created idea ∧
      (idea.tech_stack =
        normalize_tech_stack ((duplicate_stack_data.lookup "tech_stack").getD .pyNone) ∧
      ∀ t ∈ idea.tech_stack, t ≠ "") := by
  refine ⟨_, rfl, ?_⟩
  exact stored_stack_normalized [] duplicate_stack_data _ rfl
